import Mathlib

/-!
Shallow embedding of the `empmanage` employee-management rule
engine (`ems/ai.py`) and the payroll derivation hook (`SalaryRecord.save` in
`ems/models.py`), together with theorems settling the specification claims.

Django querysets over database tables are modelled as Lean `List` values and
queryset filters as `List.filter`.  Python `Decimal` arithmetic is modelled by
`ℚ`; Python dates by a year/month/day structure with lexicographic order.
-/

namespace EmpManage

/-- A calendar date (`datetime.date`): year, month, day. -/
structure Date where
  year : Nat
  month : Nat
  day : Nat
deriving DecidableEq, Repr

/-- Strict lexicographic order on dates, as Python compares `date` values. -/
def Date.lt (a b : Date) : Prop :=
  a.year < b.year ∨ (a.year = b.year ∧ (a.month < b.month ∨ (a.month = b.month ∧ a.day < b.day)))

/-- Non-strict order on dates. -/
def Date.le (a b : Date) : Prop := Date.lt a b ∨ a = b

instance : LT Date := ⟨Date.lt⟩

instance : LE Date := ⟨Date.le⟩

instance Date.decLt (a b : Date) : Decidable (Date.lt a b) :=
  inferInstanceAs (Decidable (a.year < b.year ∨ (a.year = b.year ∧ (a.month < b.month ∨ (a.month = b.month ∧ a.day < b.day)))))

instance Date.decLe (a b : Date) : Decidable (Date.le a b) :=
  inferInstanceAs (Decidable (Date.lt a b ∨ a = b))

instance Date.decLt' (a b : Date) : Decidable (a < b) := Date.decLt a b

instance Date.decLe' (a b : Date) : Decidable (a ≤ b) := Date.decLe a b

/-- Embeds `calendar.isleap`: Gregorian leap-year test. -/
def isleap (y : Nat) : Bool :=
  decide (y % 4 = 0) && (decide (y % 100 ≠ 0) || decide (y % 400 = 0))

/-- Embeds `calendar.monthrange(y, m)[1]`: the number of days in month `m` of year `y`. -/
def monthLastDay (y m : Nat) : Nat :=
  if m = 2 then (if isleap y then 29 else 28)
  else if m = 4 ∨ m = 6 ∨ m = 9 ∨ m = 11 then 30
  else 31

/-- Days in the months of year `y` strictly before month `m`. -/
def daysBeforeMonth (y m : Nat) : Nat :=
  ((List.range (m - 1)).map (fun i => monthLastDay y (i + 1))).sum

/-- Embeds `date.toordinal()`: proleptic-Gregorian day number, with 0001-01-01 as day 1.
Used to model `datetime.date` subtraction (`timedelta.days`). -/
def Date.toOrdinal (d : Date) : Nat :=
  365 * (d.year - 1) + (d.year - 1) / 4 - (d.year - 1) / 100 + (d.year - 1) / 400
    + daysBeforeMonth d.year d.month + d.day

/-- Attendance status choices of `AttendanceRecord`. -/
inductive AStatus
| PRESENT
| ABSENT
| LATE
deriving DecidableEq, Repr

/-- Review status choices of `AttendanceRecord`. -/
inductive RStatus
| PENDING
| APPROVED
| REJECTED
deriving DecidableEq, Repr

/-- Status choices of `LeaveRequest`. -/
inductive LStatus
| PENDING
| APPROVED
| REJECTED
deriving DecidableEq, Repr

/-- Embeds `ems.models.AttendanceRecord`: the fields the rule engine reads.
the `employee` field holds the primary key of the employee. -/
structure AttendanceRecord where
  employee : Nat
  date : Date
  status : AStatus
  review_status : RStatus
deriving DecidableEq, Repr

/-- Embeds `ems.models.User`: the fields the rule engine reads.  A blank
`department` string is Python-falsy ("no department"). -/
structure User where
  id : Nat
  department : String
  leave_balance : Int
deriving DecidableEq, Repr

/-- Embeds `ems.models.LeaveRequest`: the fields the rule engine reads. -/
structure LeaveRequest where
  employee : User
  start_date : Date
  end_date : Date
  status : LStatus
deriving DecidableEq, Repr

/-- Embeds `LeaveRequest.total_days`: `(end_date - start_date).days + 1`. -/
def LeaveRequest.total_days (lr : LeaveRequest) : Int :=
  ((lr.end_date.toOrdinal : Int) - (lr.start_date.toOrdinal : Int)) + 1

/-- Embeds `ems.models.SalaryRecord`: persisted fields (`Decimal` modelled by `ℚ`). -/
structure SalaryRecord where
  employee : Nat
  month : Date
  base_salary : ℚ
  final_salary : ℚ
  late_days : Nat
  absent_days : Nat
  anomaly_flag : Bool
deriving DecidableEq, Repr

/-- The attendance rows `ems.ai.attendance_flag` actually reads: the employee
Approved rows, restricted — when a month is given — to
[first day of that month, first day of the next month). -/
def relevantAttendance (db : List AttendanceRecord) (employee : Nat) (month : Option Date) :
    List AttendanceRecord :=
  let records := db.filter fun a =>
    decide (a.employee = employee) && decide (a.review_status = RStatus.APPROVED)
  match month with
  | none => records
  | some mo =>
    let month_start : Date := { mo with day := 1 }
    let month_end : Date :=
      if mo.month = 12 then { year := mo.year + 1, month := 1, day := 1 }
      else { mo with month := mo.month + 1, day := 1 }
    records.filter fun a => decide (month_start ≤ a.date) && decide (a.date < month_end)

/-- Embeds `ems.ai.attendance_flag(employee, month=None)`. -/
def attendance_flag (db : List AttendanceRecord) (employee : Nat) (month : Option Date) :
    String :=
  let records := relevantAttendance db employee month
  let late_count := (records.filter fun a => decide (a.status = AStatus.LATE)).length
  let absent_count := (records.filter fun a => decide (a.status = AStatus.ABSENT)).length
  if 4 < late_count then "Frequently Late"
  else if 3 ≤ absent_count ∧ 3 ≤ late_count then "Irregular Attendance"
  else "Stable Attendance"

/-- Embeds `ems.ai._team_available(employee, start_date, end_date)`, with the `User`
and `LeaveRequest` tables passed explicitly. -/
def team_available (users : List User) (leaves : List LeaveRequest) (employee : User)
    (start_date end_date : Date) : Bool :=
  if employee.department = "" then true
  else
    let team_members := users.filter fun u =>
      decide (u.department = employee.department) && decide (u.id ≠ employee.id)
    if team_members.isEmpty then true
    else
      let overlapping := leaves.filter fun l =>
        (team_members.any fun u => decide (u.id = l.employee.id)) &&
          decide (l.status = LStatus.APPROVED) &&
          decide (l.start_date ≤ end_date) && decide (start_date ≤ l.end_date)
      decide (1 ≤ (team_members.length : Int) - ((overlapping.map fun l => l.employee.id).dedup.length : Int))

/-- Embeds `ems.ai.leave_recommendation(leave_request)`. -/
def leave_recommendation (users : List User) (leaves : List LeaveRequest)
    (lr : LeaveRequest) : String :=
  if lr.employee.leave_balance ≥ lr.total_days ∧
      team_available users leaves lr.employee lr.start_date lr.end_date = true then
    "Suggest Approve"
  else "Suggest Review"

/-- Round a rational to an integer, ties to even (`Decimal` default rounding,
used by the fixed-point formatting of Python). -/
def roundHalfEven (q : ℚ) : Int :=
  let f : Int := Int.floor q
  let frac : ℚ := q - f
  if frac < 1 / 2 then f
  else if 1 / 2 < frac then f + 1
  else if f % 2 = 0 then f else f + 1

/-- Left-pad a string with zero characters to the given length. -/
def padZeros (s : String) (n : Nat) : String :=
  if s.length < n then String.mk (List.replicate (n - s.length) '0') ++ s else s

/-- Python fixed-point formatting of a `Decimal` value to the given number of
fraction digits, as an f-string format specifier such as `.2f` performs it. -/
def formatFixed (digits : Nat) (q : ℚ) : String :=
  let scaled : Int := roundHalfEven (q * ((10 : ℚ) ^ digits))
  let mag : Nat := scaled.natAbs
  let ip : Nat := mag / 10 ^ digits
  let fp : Nat := mag % 10 ^ digits
  let sign : String := if scaled < 0 then "-" else ""
  if digits = 0 then sign ++ toString ip
  else sign ++ toString ip ++ "." ++ padZeros (toString fp) digits

/-- The structured result of `ems.ai.payslip_summary`. -/
structure PayslipSummary where
  headline : String
  insights : List String
  warnings : List String
  deduction : ℚ
  deduction_rate : ℚ
deriving DecidableEq, Repr

/-- Embeds `ems.ai.payslip_summary(salary_record)`. -/
def payslip_summary (r : SalaryRecord) : PayslipSummary :=
  let base := r.base_salary
  let final := r.final_salary
  let deduction := max (base - final) 0
  let deduction_rate := if base = 0 then 0 else deduction / base * 100
  let headline :=
    if deduction = 0 then "Full payout expected for this month."
    else if (20 : ℚ) ≤ deduction_rate then "Significant deductions detected this month."
    else "Minor deductions applied to this month."
  let insights0 : List String :=
    if deduction = 0 then ["No attendance deductions were applied."] else []
  let insights1 := insights0 ++
    (if r.absent_days ≠ 0 then [toString r.absent_days ++ " day(s) marked absent."] else [])
  let insights2 := insights1 ++
    (if r.late_days ≠ 0 then [toString r.late_days ++ " day(s) marked late."] else [])
  let insights := if insights2.isEmpty then ["Attendance signals are stable for this period."]
    else insights2
  let warnings0 : List String :=
    if r.anomaly_flag then ["Salary changed by more than 30% compared to last month."] else []
  let warnings := warnings0 ++
    (if 0 < deduction then
      ["Deduction total: " ++ formatFixed 2 deduction ++ " (" ++ formatFixed 1 deduction_rate ++ "% of base pay)."]
    else [])
  ⟨headline, insights, warnings, deduction, deduction_rate⟩

/-- Embeds `SalaryRecord.objects.filter(employee=…, month__lt=…).order_by(-month).first()`:
the salary record of the same employee with the most recent strictly earlier month. -/
def prevSalary (db : List SalaryRecord) (employee : Nat) (month : Date) :
    Option SalaryRecord :=
  (db.filter fun s => decide (s.employee = employee) && decide (s.month < month)).foldl
    (fun acc s =>
      match acc with
      | none => some s
      | some b => if b.month < s.month then some s else acc)
    none

/-- Embeds `ems.models.SalaryRecord.save`: the derivation performed before the row is
written.  `att` is the `AttendanceRecord` table, `db` the `SalaryRecord` table
(the row being saved is identified by its fields, not by membership in `db`). -/
def SalaryRecord.save (att : List AttendanceRecord) (db : List SalaryRecord)
    (r : SalaryRecord) : SalaryRecord :=
  let m : Date := { r.month with day := 1 }
  let month_start := m
  let month_end : Date := { m with day := monthLastDay m.year m.month }
  let attendance := att.filter fun a =>
    decide (a.employee = r.employee) && decide (month_start ≤ a.date) &&
      decide (a.date ≤ month_end) && decide (a.review_status = RStatus.APPROVED)
  let late := (attendance.filter fun a => decide (a.status = AStatus.LATE)).length
  let absent := (attendance.filter fun a => decide (a.status = AStatus.ABSENT)).length
  let daily_rate : ℚ := if r.base_salary = 0 then 0 else r.base_salary / 22
  let deduction : ℚ := daily_rate * (absent : ℚ) + (daily_rate / 2) * (late : ℚ)
  let final : ℚ := max (r.base_salary - deduction) 0
  let anomaly : Bool :=
    match prevSalary db r.employee m with
    | some p =>
      if p.final_salary = 0 then false
      else decide (|final - p.final_salary| / p.final_salary > 3 / 10)
    | none => false
  { r with
      month := m
      late_days := late
      absent_days := absent
      final_salary := final
      anomaly_flag := anomaly }

/-- The daily rate as the claim reads it, written from the words of the spec for
comparison with the code: `base_salary / 22` when `base_salary > 0`, else `0`.
(The guard in the code is Python truthiness, i.e. `base_salary ≠ 0`.) -/
def specDailyRate (base : ℚ) : ℚ := if 0 < base then base / 22 else 0

/-- Concrete attendance table: 23 approved absences in June 2024 for employee 7. -/
def exAttC1 : List AttendanceRecord :=
  (List.range 23).map fun i => ⟨7, ⟨2024, 6, i + 1⟩, AStatus.ABSENT, RStatus.APPROVED⟩

/-- Concrete salary row with a negative base salary. -/
def exRecC1 : SalaryRecord := ⟨7, ⟨2024, 6, 15⟩, -220, 0, 0, 0, false⟩

/-- Concrete approved, in-window attendance row for the noninterference witness. -/
def exAttApproved : AttendanceRecord := ⟨1, ⟨2024, 6, 3⟩, AStatus.LATE, RStatus.APPROVED⟩

/-- Concrete pending attendance row (must not influence `attendance_flag`). -/
def exAttPending : AttendanceRecord := ⟨1, ⟨2024, 6, 4⟩, AStatus.ABSENT, RStatus.PENDING⟩

/-- Concrete rejected attendance row (must not influence `attendance_flag`). -/
def exAttRejected : AttendanceRecord := ⟨1, ⟨2024, 6, 5⟩, AStatus.ABSENT, RStatus.REJECTED⟩

/-- Concrete approved attendance row outside the filtered month. -/
def exAttOutside : AttendanceRecord := ⟨1, ⟨2024, 7, 3⟩, AStatus.ABSENT, RStatus.APPROVED⟩

/-- Concrete salary row with no deduction (base = final). -/
def exRecFull : SalaryRecord := ⟨1, ⟨2024, 6, 1⟩, 1000, 1000, 0, 0, false⟩

/-- Two chained queryset filters count the same rows as a single combined
predicate. -/
theorem length_filter_filter_eq_countP {α : Type} (l : List α) (p q big : α → Bool)
    (h : ∀ a, (q a && p a) = big a) :
    ((l.filter p).filter q).length = l.countP big := by
  rw [List.countP_eq_length_filter, List.filter_filter]
  exact congrArg List.length (List.filter_congr fun a _ => h a)

/-- C3.  attendance_flag classification: with `late_count` and `absent_count`
the counts of Approved Late resp. Absent entries in scope, the result is
"Frequently Late" if `late_count > 4`; otherwise "Irregular Attendance" if
`absent_count ≥ 3` and `late_count ≥ 3`; otherwise "Stable Attendance",
first match winning in that order. -/
theorem claim3_attendance_flag_classification (db : List AttendanceRecord)
    (employee : Nat) (month : Option Date) :
    attendance_flag db employee month =
      (if 4 < (relevantAttendance db employee month).countP
            (fun a => decide (a.status = AStatus.LATE)) then
        "Frequently Late"
      else if 3 ≤ (relevantAttendance db employee month).countP
              (fun a => decide (a.status = AStatus.ABSENT)) ∧
            3 ≤ (relevantAttendance db employee month).countP
              (fun a => decide (a.status = AStatus.LATE)) then
        "Irregular Attendance"
      else "Stable Attendance") := by
  simp only [attendance_flag, List.countP_eq_length_filter]

/-- C8.  Noninterference: `attendance_flag` depends only on the employee
Approved attendance entries, restricted (when a month is given) to the
half-open window [first day of month, first day of next month); two
attendance tables agreeing on those entries yield the same flag. -/
theorem claim8_attendance_flag_noninterference (employee : Nat) (month : Option Date)
    (db1 db2 : List AttendanceRecord)
    (h : relevantAttendance db1 employee month = relevantAttendance db2 employee month) :
    attendance_flag db1 employee month = attendance_flag db2 employee month := by
  unfold attendance_flag
  rw [h]

/-- C8 witness: adding a Pending row, a Rejected row and an out-of-window
Approved row leaves the relevant rows — and hence the flag — unchanged. -/
theorem claim8_witness :
    relevantAttendance [exAttApproved] 1 (some ⟨2024, 6, 15⟩) =
      relevantAttendance [exAttApproved, exAttPending, exAttRejected, exAttOutside] 1
        (some ⟨2024, 6, 15⟩) ∧
    attendance_flag [exAttApproved] 1 (some ⟨2024, 6, 15⟩) =
      attendance_flag [exAttApproved, exAttPending, exAttRejected, exAttOutside] 1
        (some ⟨2024, 6, 15⟩) :=
  ⟨by decide,
    claim8_attendance_flag_noninterference 1 (some ⟨2024, 6, 15⟩)
      [exAttApproved] [exAttApproved, exAttPending, exAttRejected, exAttOutside]
      (by decide)⟩

/-- C4.  leave_recommendation returns "Suggest Approve" iff the employee
leave balance covers `total_days` and the team-availability check holds; in
every other case it returns "Suggest Review". -/
theorem claim4_leave_recommendation (users : List User) (leaves : List LeaveRequest)
    (lr : LeaveRequest) :
    (leave_recommendation users leaves lr = "Suggest Approve" ↔
      lr.employee.leave_balance ≥ lr.total_days ∧
        team_available users leaves lr.employee lr.start_date lr.end_date = true) ∧
    (leave_recommendation users leaves lr = "Suggest Approve" ∨
      leave_recommendation users leaves lr = "Suggest Review") := by
  unfold leave_recommendation
  by_cases h : lr.employee.leave_balance ≥ lr.total_days ∧
      team_available users leaves lr.employee lr.start_date lr.end_date = true
  · rw [if_pos h]
    exact ⟨⟨fun _ => h, fun _ => rfl⟩, Or.inl rfl⟩
  · rw [if_neg h]
    exact ⟨⟨fun hs => absurd hs (by decide), fun hc => absurd hc h⟩, Or.inr rfl⟩

/-- C9.  Salary derivation idempotence: re-running the save-time derivation on
its own output, with the same attendance table and the same salary table,
yields the same late_days, absent_days, final_salary and anomaly_flag. -/
theorem claim9_salary_save_idempotent (att : List AttendanceRecord)
    (db : List SalaryRecord) (r : SalaryRecord) :
    (SalaryRecord.save att db (SalaryRecord.save att db r)).late_days =
        (SalaryRecord.save att db r).late_days ∧
      (SalaryRecord.save att db (SalaryRecord.save att db r)).absent_days =
        (SalaryRecord.save att db r).absent_days ∧
      (SalaryRecord.save att db (SalaryRecord.save att db r)).final_salary =
        (SalaryRecord.save att db r).final_salary ∧
      (SalaryRecord.save att db (SalaryRecord.save att db r)).anomaly_flag =
        (SalaryRecord.save att db r).anomaly_flag :=
  ⟨rfl, rfl, rfl, rfl⟩

/-- C2.  Anomaly detection: if a salary record for the same employee with the
most recent strictly earlier month exists and its final_salary > 0, the flag
is `|final − previous final| / previous final > 0.30`; in every other case
(no predecessor, or predecessor final ≤ 0) the flag is false. -/
theorem claim2_anomaly_detection (att : List AttendanceRecord) (db : List SalaryRecord)
    (r : SalaryRecord) :
    (SalaryRecord.save att db r).anomaly_flag =
      (match prevSalary db r.employee { r.month with day := 1 } with
      | none => false
      | some p =>
        if 0 < p.final_salary then
          decide (|(SalaryRecord.save att db r).final_salary - p.final_salary| /
            p.final_salary > 3 / 10)
        else false) := by
  simp only [SalaryRecord.save]
  cases hp : prevSalary db r.employee { r.month with day := 1 } with
  | none => rfl
  | some p =>
    dsimp only
    rcases lt_trichotomy p.final_salary 0 with h | h | h
    · rw [if_neg h.ne, if_neg (not_lt.2 h.le)]
      apply decide_eq_false
      rw [gt_iff_lt, not_lt]
      exact le_trans (div_nonpos_iff.mpr (Or.inl ⟨abs_nonneg _, h.le⟩)) (by norm_num)
    · rw [if_pos h, if_neg (by rw [h]; exact lt_irrefl 0)]
    · rw [if_neg h.ne', if_pos h]

/-- The saved final salary equals base minus the deduction computed from the
stored counts; plain unfolding of `SalaryRecord.save`. -/
theorem save_final_salary_eq (att : List AttendanceRecord) (db : List SalaryRecord)
    (r : SalaryRecord) :
    (SalaryRecord.save att db r).final_salary =
      max (r.base_salary -
        ((if r.base_salary = 0 then 0 else r.base_salary / 22) *
            ((SalaryRecord.save att db r).absent_days : ℚ) +
          ((if r.base_salary = 0 then 0 else r.base_salary / 22) / 2) *
            ((SalaryRecord.save att db r).late_days : ℚ))) 0 := rfl

/-- C1 counterexample: with base_salary = −220 and 23 Approved Absent entries
in the month, the code stores final_salary = 10, while the formula of the claim
(daily_rate = 0 since base_salary is not > 0, hence deduction 0) predicts
max(−220 − 0, 0) = 0. -/
theorem claim1_counterexample :
    (SalaryRecord.save exAttC1 [] exRecC1).absent_days = 23 ∧
    (SalaryRecord.save exAttC1 [] exRecC1).late_days = 0 ∧
    (SalaryRecord.save exAttC1 [] exRecC1).final_salary = 10 ∧
    max (exRecC1.base_salary -
      (specDailyRate exRecC1.base_salary * 23 + specDailyRate exRecC1.base_salary / 2 * 0)) 0
      = 0 ∧
    (10 : ℚ) ≠ 0 := by
  have habs : (SalaryRecord.save exAttC1 [] exRecC1).absent_days = 23 := by decide
  have hlate : (SalaryRecord.save exAttC1 [] exRecC1).late_days = 0 := by decide
  refine ⟨habs, hlate, ?_, ?_, by norm_num⟩
  · rw [save_final_salary_eq, habs, hlate]
    simp only [exRecC1]
    norm_num [max_def]
  · show max ((-220 : ℚ) - (specDailyRate (-220) * 23 + specDailyRate (-220) / 2 * 0)) 0 = 0
    rw [specDailyRate, if_neg (by norm_num)]
    norm_num [max_def]

/-- C1, amended.  Salary derivation: the month is normalized to its first day;
late_days and absent_days count the Approved attendance entries of the employee
with status Late resp. Absent dated within [month start, month end] inclusive;
daily_rate = base_salary / 22 when base_salary ≠ 0 else 0 (the guard in the code is
truthiness, not positivity); deduction = daily_rate·absent_days +
(daily_rate/2)·late_days; final_salary = max(base_salary − deduction, 0). -/
theorem claim1_salary_derivation_amended (att : List AttendanceRecord)
    (db : List SalaryRecord) (r : SalaryRecord) :
    (SalaryRecord.save att db r).month = { r.month with day := 1 } ∧
    (SalaryRecord.save att db r).late_days = att.countP (fun a =>
      decide (a.employee = r.employee ∧ a.review_status = RStatus.APPROVED ∧
        { r.month with day := 1 } ≤ a.date ∧
        a.date ≤ { r.month with day := monthLastDay r.month.year r.month.month } ∧
        a.status = AStatus.LATE)) ∧
    (SalaryRecord.save att db r).absent_days = att.countP (fun a =>
      decide (a.employee = r.employee ∧ a.review_status = RStatus.APPROVED ∧
        { r.month with day := 1 } ≤ a.date ∧
        a.date ≤ { r.month with day := monthLastDay r.month.year r.month.month } ∧
        a.status = AStatus.ABSENT)) ∧
    (SalaryRecord.save att db r).final_salary =
      max (r.base_salary -
        ((if r.base_salary = 0 then 0 else r.base_salary / 22) *
            ((SalaryRecord.save att db r).absent_days : ℚ) +
          ((if r.base_salary = 0 then 0 else r.base_salary / 22) / 2) *
            ((SalaryRecord.save att db r).late_days : ℚ))) 0 := by
  refine ⟨rfl, ?_, ?_, rfl⟩
  · refine length_filter_filter_eq_countP att _ _ _ fun a => ?_
    rw [Bool.eq_iff_iff]
    simp only [Bool.and_eq_true, decide_eq_true_eq]
    tauto
  · refine length_filter_filter_eq_countP att _ _ _ fun a => ?_
    rw [Bool.eq_iff_iff]
    simp only [Bool.and_eq_true, decide_eq_true_eq]
    tauto

/-- C5.  Team availability: true when the employee has no department; else,
with the team being all other users of the same department, true when the team
is empty; else true iff team size minus the number of distinct teammates with
at least one Approved leave overlapping the requested range (inclusive test
existing.start ≤ new.end and existing.end ≥ new.start) is at least 1. -/
theorem claim5_team_available (users : List User) (leaves : List LeaveRequest)
    (employee : User) (start_date end_date : Date) :
    team_available users leaves employee start_date end_date =
      (if employee.department = "" then true
      else
        let team := users.filter fun u =>
          decide (u.department = employee.department) && decide (u.id ≠ employee.id)
        if team = [] then true
        else
          decide (1 ≤ (team.length : Int) -
            (((leaves.filter fun l =>
                decide (l.employee.id ∈ team.map User.id) &&
                  decide (l.status = LStatus.APPROVED) &&
                  decide (l.start_date ≤ end_date) &&
                  decide (start_date ≤ l.end_date)).map
              fun l => l.employee.id).dedup.length : Int))) := by
  simp only [team_available, List.isEmpty_iff]
  by_cases hd : employee.department = ""
  · rw [if_pos hd, if_pos hd]
  · rw [if_neg hd, if_neg hd]
    set team := users.filter fun u =>
      decide (u.department = employee.department) && decide (u.id ≠ employee.id) with hteam
    by_cases ht : team = []
    · rw [if_pos ht, if_pos ht]
    · rw [if_neg ht, if_neg ht]
      have hfil : (leaves.filter fun l =>
            (team.any fun u => decide (u.id = l.employee.id)) &&
              decide (l.status = LStatus.APPROVED) &&
              decide (l.start_date ≤ end_date) && decide (start_date ≤ l.end_date)) =
          (leaves.filter fun l =>
            decide (l.employee.id ∈ team.map User.id) &&
              decide (l.status = LStatus.APPROVED) &&
              decide (l.start_date ≤ end_date) && decide (start_date ≤ l.end_date)) := by
        refine List.filter_congr fun l _ => ?_
        rw [Bool.eq_iff_iff]
        simp only [Bool.and_eq_true, decide_eq_true_eq, List.any_eq_true, List.mem_map]
      rw [hfil]

/-- C6.  payslip_summary: deduction = max(base − final, 0); deduction_rate is
the guarded percentage (0 when base_salary = 0, never an error); the headline
is chosen by deduction = 0, then deduction_rate ≥ 20, in that order. -/
theorem claim6_payslip_deduction_rate_headline (r : SalaryRecord) :
    (payslip_summary r).deduction = max (r.base_salary - r.final_salary) 0 ∧
    (payslip_summary r).deduction_rate =
      (if r.base_salary = 0 then 0 else (payslip_summary r).deduction / r.base_salary * 100) ∧
    (payslip_summary r).headline =
      (if (payslip_summary r).deduction = 0 then "Full payout expected for this month."
      else if (20 : ℚ) ≤ (payslip_summary r).deduction_rate then
        "Significant deductions detected this month."
      else "Minor deductions applied to this month.") := ⟨rfl, rfl, rfl⟩

/-- The insight list of `payslip_summary`, written out: the collected lines
(no-deduction line when deduction = 0, then the absent line when absent_days
is nonzero, then the late line when late_days is nonzero), with the fallback
line replacing an empty collection. -/
theorem payslip_insights_eq (r : SalaryRecord) :
    (payslip_summary r).insights =
      (let collected :=
        (if (payslip_summary r).deduction = 0 then ["No attendance deductions were applied."]
          else []) ++
        (if r.absent_days ≠ 0 then [toString r.absent_days ++ " day(s) marked absent."]
          else []) ++
        (if r.late_days ≠ 0 then [toString r.late_days ++ " day(s) marked late."] else [])
      if collected = [] then ["Attendance signals are stable for this period."]
      else collected) := by
  simp only [payslip_summary, List.isEmpty_iff]

/-- A numbered absent-insight line is never the fallback line. -/
theorem absent_line_ne_stable (n : Nat) :
    toString n ++ " day(s) marked absent." ≠
      "Attendance signals are stable for this period." := by
  intro h
  have hd := congrArg String.data h
  rw [String.data_append] at hd
  have hsuf : (" day(s) marked absent.").data <:+
      ("Attendance signals are stable for this period.").data := ⟨(toString n).data, hd⟩
  exact absurd hsuf (by decide)

/-- A numbered late-insight line is never the fallback line. -/
theorem late_line_ne_stable (n : Nat) :
    toString n ++ " day(s) marked late." ≠
      "Attendance signals are stable for this period." := by
  intro h
  have hd := congrArg String.data h
  rw [String.data_append] at hd
  have hsuf : (" day(s) marked late.").data <:+
      ("Attendance signals are stable for this period.").data := ⟨(toString n).data, hd⟩
  exact absurd hsuf (by decide)

/-- C7.  payslip_summary insights and warnings: insights holds the absent line
iff absent_days ≠ 0 and the late line iff late_days ≠ 0, prefixed by the
no-deduction line when deduction = 0, with the fallback line exactly when
nothing was collected; warnings holds the anomaly line iff anomaly_flag,
followed by the formatted deduction-total line iff deduction > 0. -/
theorem claim7_payslip_insights_warnings (r : SalaryRecord) :
    (payslip_summary r).insights =
      (let collected :=
        (if (payslip_summary r).deduction = 0 then ["No attendance deductions were applied."]
          else []) ++
        (if r.absent_days ≠ 0 then [toString r.absent_days ++ " day(s) marked absent."]
          else []) ++
        (if r.late_days ≠ 0 then [toString r.late_days ++ " day(s) marked late."] else [])
      if collected = [] then ["Attendance signals are stable for this period."]
      else collected) ∧
    (payslip_summary r).warnings =
      (if r.anomaly_flag then ["Salary changed by more than 30% compared to last month."]
        else []) ++
      (if 0 < (payslip_summary r).deduction then
        ["Deduction total: " ++ formatFixed 2 (payslip_summary r).deduction ++ " (" ++
          formatFixed 1 (payslip_summary r).deduction_rate ++ "% of base pay)."]
      else []) :=
  ⟨payslip_insights_eq r, rfl⟩

/-- C10.  For every input, the payslip_summary insight list is non-empty; when
deduction = 0 its first element is the no-deduction line; and the fallback
line appears iff deduction > 0 while absent_days and late_days are both 0. -/
theorem claim10_payslip_insights_invariant (r : SalaryRecord) :
    (payslip_summary r).insights ≠ [] ∧
    ((payslip_summary r).deduction = 0 →
      (payslip_summary r).insights.head? = some "No attendance deductions were applied.") ∧
    ("Attendance signals are stable for this period." ∈ (payslip_summary r).insights ↔
      0 < (payslip_summary r).deduction ∧ r.absent_days = 0 ∧ r.late_days = 0) := by
  refine ⟨?_, ?_, ?_⟩
  · by_cases h0 : (payslip_summary r).deduction = 0 <;>
      by_cases ha : r.absent_days = 0 <;> by_cases hl : r.late_days = 0 <;>
      simp [payslip_insights_eq r, h0, ha, hl]
  · intro h0
    simp [payslip_insights_eq r, h0]
  · have hstab0 :
        ¬(("Attendance signals are stable for this period." : String) =
          "No attendance deductions were applied.") := by decide
    have hstab1 :
        ¬(("Attendance signals are stable for this period." : String) =
          toString r.absent_days ++ " day(s) marked absent.") :=
      fun h => absent_line_ne_stable r.absent_days h.symm
    have hstab2 :
        ¬(("Attendance signals are stable for this period." : String) =
          toString r.late_days ++ " day(s) marked late.") :=
      fun h => late_line_ne_stable r.late_days h.symm
    rw [payslip_insights_eq r]
    by_cases h0 : (payslip_summary r).deduction = 0
    · simp [h0, hstab0, hstab1, hstab2]
    · have hpos : 0 < (payslip_summary r).deduction :=
        lt_of_le_of_ne (le_max_right (r.base_salary - r.final_salary) 0) (Ne.symm h0)
      by_cases ha : r.absent_days = 0 <;> by_cases hl : r.late_days = 0 <;>
        simp [h0, ha, hl, hpos, hstab0, hstab1, hstab2]

/-- C10 witness: a record with base = final = 1000 has deduction 0, a
non-empty insight list, and the no-deduction line first. -/
theorem claim10_witness :
    (payslip_summary exRecFull).insights ≠ [] ∧
    (payslip_summary exRecFull).insights.head? =
      some "No attendance deductions were applied." :=
  ⟨(claim10_payslip_insights_invariant exRecFull).1,
    (claim10_payslip_insights_invariant exRecFull).2.1 (by
      show max ((1000 : ℚ) - 1000) 0 = 0
      norm_num)⟩

end EmpManage
